import Mathlib

set_option maxHeartbeats 1000000

/-!
Shallow embedding of the risk-detection and scoring engine of the
ProtectYaNeck browser extension: the keyword matcher, severity
aggregation, risk scoring, baseline comparison, red-flag scanning and
the enhanced-analysis facade found in src/src/content/LawyerModal.ts,
together with the shared keyword/category tables exported from the
shared constants module (visible in src/src/services/llm-analyzer.ts).

Modelling conventions:
* JavaScript strings are modelled as Lean String / List Char.
  String.prototype.toLowerCase is modelled character-wise by
  Char.toLower; every keyword and pattern in the tables is ASCII, where
  the two agree.
* Date.now() is modelled by an explicit (now : Nat) parameter threaded
  to the one place the source reads the clock: the id field of a
  freshly built finding.
* Array.prototype.sort is stable (ECMAScript 2019 and later); a stable
  sort is extensionally unique, and we use List.insertionSort, whose
  orderedInsert places an element before another exactly when the
  relation holds, which is stable for the source comparator
  (a, b) => severityRank(b.severity) - severityRank(a.severity).
* The red-flag regular expressions are a fixed list built from literal
  characters, one-or-more-whitespace, optional groups and alternation;
  rxMatch gives them a direct backtracking semantics whose preference
  order (greedy whitespace, left alternative first, optional group
  taken first, leftmost start position, first result kept) agrees with
  the ECMAScript engine on these patterns.
-/

/-- The four severity levels, ordered low < medium < high < critical. -/
inductive RiskSeverity where
  | low
  | medium
  | high
  | critical
deriving DecidableEq, Repr

/-- The eight risk categories of the shared constants module, with the
constructor order matching the declaration (and hence Object.entries
iteration) order of RISK_KEYWORDS. -/
inductive RiskCategory where
  | data_sharing
  | auto_renewal
  | third_party_access
  | liability_waiver
  | arbitration
  | data_retention
  | account_termination
  | jurisdiction
deriving DecidableEq, Repr

/-- Object.entries iteration order over RISK_KEYWORDS. -/
def CATEGORY_ORDER : List RiskCategory :=
  [RiskCategory.data_sharing, RiskCategory.auto_renewal,
   RiskCategory.third_party_access, RiskCategory.liability_waiver,
   RiskCategory.arbitration, RiskCategory.data_retention,
   RiskCategory.account_termination, RiskCategory.jurisdiction]

/-- The string key a category carries in the source tables. -/
def categoryKey : RiskCategory → String
  | RiskCategory.data_sharing => "data_sharing"
  | RiskCategory.auto_renewal => "auto_renewal"
  | RiskCategory.third_party_access => "third_party_access"
  | RiskCategory.liability_waiver => "liability_waiver"
  | RiskCategory.arbitration => "arbitration"
  | RiskCategory.data_retention => "data_retention"
  | RiskCategory.account_termination => "account_termination"
  | RiskCategory.jurisdiction => "jurisdiction"

/-- severityRank from LawyerModal.ts: low 1, medium 2, high 3, critical 4. -/
def severityRank : RiskSeverity → Nat
  | RiskSeverity.low => 1
  | RiskSeverity.medium => 2
  | RiskSeverity.high => 3
  | RiskSeverity.critical => 4

/-- The fields of RISK_CATEGORIES used by the analysis core (label and
defaultSeverity; description and icon are never read by it). -/
structure CategoryMeta where
  label : String
  defaultSeverity : RiskSeverity
deriving DecidableEq, Repr

/-- RISK_CATEGORIES from the shared constants module. -/
def RISK_CATEGORIES : RiskCategory → CategoryMeta
  | RiskCategory.data_sharing => ⟨"Data Sharing", RiskSeverity.high⟩
  | RiskCategory.auto_renewal => ⟨"Auto-Renewal", RiskSeverity.medium⟩
  | RiskCategory.third_party_access => ⟨"Third-Party Access", RiskSeverity.high⟩
  | RiskCategory.liability_waiver => ⟨"Liability Waiver", RiskSeverity.high⟩
  | RiskCategory.arbitration => ⟨"Arbitration Clause", RiskSeverity.critical⟩
  | RiskCategory.data_retention => ⟨"Data Retention", RiskSeverity.medium⟩
  | RiskCategory.account_termination => ⟨"Account Termination", RiskSeverity.medium⟩
  | RiskCategory.jurisdiction => ⟨"Jurisdiction", RiskSeverity.low⟩

/-- RISK_KEYWORDS from the shared constants module, verbatim. -/
def RISK_KEYWORDS : RiskCategory → List String
  | RiskCategory.data_sharing =>
    ["share with third parties", "share your information", "disclose to partners",
     "sell your data", "transfer your information", "share with affiliates",
     "provide to advertisers"]
  | RiskCategory.auto_renewal =>
    ["automatically renew", "auto-renewal", "recurring billing",
     "subscription will renew", "cancel before", "billing cycle",
     "charged automatically"]
  | RiskCategory.third_party_access =>
    ["service providers", "third-party services", "contractors",
     "business partners", "access your information", "share with vendors"]
  | RiskCategory.liability_waiver =>
    ["limitation of liability", "not responsible for", "not liable for",
     "no warranty", "as is", "disclaim all warranties", "use at your own risk"]
  | RiskCategory.arbitration =>
    ["binding arbitration", "waive right to jury", "class action waiver",
     "arbitration agreement", "dispute resolution",
     "waive your right to participate in class action"]
  | RiskCategory.data_retention =>
    ["retain your data", "keep your information", "store indefinitely",
     "retain after termination", "data retention period", "preserve your data"]
  | RiskCategory.account_termination =>
    ["terminate at any time", "suspend your account", "without notice",
     "sole discretion", "terminate without cause", "revoke access"]
  | RiskCategory.jurisdiction =>
    ["governed by the laws of", "exclusive jurisdiction", "venue shall be",
     "subject to the laws", "courts of"]

/-- Character-wise model of String.prototype.toLowerCase (exact on ASCII,
which covers every table entry). -/
def toLowerList (s : List Char) : List Char := s.map Char.toLower

/-- Model of String.prototype.indexOf: index of the first occurrence of
needle in hay, none when absent. -/
def strIndexOf : List Char → List Char → Option Nat
  | hay, needle =>
    if needle.isPrefixOf hay then some 0
    else
      match hay with
      | [] => none
      | _ :: t => (strIndexOf t needle).map (fun n => n + 1)

/-- The character class matched by an ECMAScript \s, also the set
stripped by String.prototype.trim. -/
def jsWhitespace (c : Char) : Bool :=
  decide (c = ' ' ∨ c = '\t' ∨ c = '\n' ∨ c = '\r' ∨ c.toNat = 11 ∨
    c.toNat = 12 ∨ c.toNat = 0xa0 ∨ c.toNat = 0x1680 ∨
    (0x2000 ≤ c.toNat ∧ c.toNat ≤ 0x200a) ∨ c.toNat = 0x2028 ∨
    c.toNat = 0x2029 ∨ c.toNat = 0x202f ∨ c.toNat = 0x205f ∨
    c.toNat = 0x3000 ∨ c.toNat = 0xfeff)

/-- Model of String.prototype.trim. -/
def trimChars (s : List Char) : List Char :=
  ((s.dropWhile jsWhitespace).reverse.dropWhile jsWhitespace).reverse

/-- Syntax of the red-flag regular expressions: literal character
(case-insensitive), one-or-more whitespace, sequencing, alternation,
greedy optional group. -/
inductive Rx where
  | eps
  | ch (c : Char)
  | ws
  | seq (a b : Rx)
  | alt (a b : Rx)
  | opt (a : Rx)
deriving DecidableEq, Repr

/-- Remainders after matching one-or-more whitespace, greediest first. -/
def wsMatch : List Char → List (List Char)
  | [] => []
  | c :: rest => if jsWhitespace c then wsMatch rest ++ [rest] else []

/-- Backtracking matcher: the list of suffixes that remain after the
pattern consumes a prefix of the input, in the engine's preference
order (greedy whitespace, left alternative first, optional group taken
before skipped). -/
def rxMatch : Rx → List Char → List (List Char)
  | Rx.eps, s => [s]
  | Rx.ch c, s =>
    match s with
    | [] => []
    | x :: xs => if x.toLower = c.toLower then [xs] else []
  | Rx.ws, s => wsMatch s
  | Rx.seq a b, s => (rxMatch a s).flatMap (rxMatch b)
  | Rx.alt a b, s => rxMatch a s ++ rxMatch b s
  | Rx.opt a, s => rxMatch a s ++ [s]

/-- Model of String.prototype.match for a non-global regex: scan start
positions left to right, return the first (preferred) match's text. -/
def rxFirstMatch (r : Rx) : List Char → Option (List Char)
  | [] =>
    match (rxMatch r []).head? with
    | some _ => some []
    | none => none
  | c :: rest =>
    match (rxMatch r (c :: rest)).head? with
    | some rem => some ((c :: rest).take ((c :: rest).length - rem.length))
    | none => rxFirstMatch r rest

/-- A sequence of literal characters. -/
def litL (w : List Char) : Rx := w.foldr (fun c acc => Rx.seq (Rx.ch c) acc) Rx.eps

/-- A sequence of literal characters, from a string. -/
def litR (s : String) : Rx := litL s.data

/-- Right-nested sequencing of a list of patterns. -/
def rxs (l : List Rx) : Rx := l.foldr Rx.seq Rx.eps

/-- The third red-flag pattern, binding\s+arbitration, named for the
end-to-end requirement about it. -/
def rfBinding : Rx := rxs [litR "binding", Rx.ws, litR "arbitration"]

/-- RED_FLAGS from LawyerModal.ts, in source order. -/
def RED_FLAGS : List Rx :=
  [rxs [litR "waive", Rx.ws, Rx.opt (rxs [litR "your", Rx.ws]), litR "right",
        Rx.ws, litR "to", Rx.ws, Rx.opt (rxs [litR "a", Rx.ws]), litR "jury"],
   rxs [litR "class", Rx.ws, litR "action", Rx.ws, litR "waiver"],
   rfBinding,
   rxs [litR "sell", Rx.ws, Rx.opt (rxs [litR "your", Rx.ws]),
        Rx.opt (rxs [litR "personal", Rx.ws]),
        Rx.alt (litR "data") (litR "information")],
   rxs [litR "perpetual", Rx.ws, Rx.opt (rxs [litR "and", Rx.ws]),
        litR "irrevocable", Rx.ws, litR "license"],
   rxs [litR "without", Rx.ws, Rx.opt (rxs [litR "prior", Rx.ws]), litR "notice"],
   rxs [litR "sole", Rx.ws, Rx.opt (rxs [litR "and", Rx.ws, litR "absolute", Rx.ws]),
        litR "discretion"],
   rxs [litR "indemnify", Rx.ws, Rx.opt (rxs [litR "and", Rx.ws]), litR "hold",
        Rx.ws, litR "harmless"],
   rxs [litR "waive", Rx.ws, litR "any", Rx.ws, litR "claims"],
   rxs [litR "no", Rx.ws, litR "refund", Rx.opt (Rx.ch 's'), Rx.ws,
        Rx.opt (rxs [litR "under", Rx.ws, litR "any", Rx.ws, litR "circumstances"])]]

/-- detectRedFlags from LawyerModal.ts: for each pattern in order, push
the first match's text when the pattern matches. -/
def detectRedFlags (text : String) : List String :=
  RED_FLAGS.filterMap (fun r => (rxFirstMatch r text.data).map (fun cs => String.mk cs))

/-- A risk finding (RiskItem in shared/types); the location record is
flattened into the two index fields. -/
structure RiskItem where
  id : String
  category : RiskCategory
  severity : RiskSeverity
  title : String
  summary : String
  originalText : String
  locStart : Nat
  locEnd : Nat
deriving DecidableEq, Repr

/-- The literal alternatives of the critical-indicator regex in
determineSeverity. -/
def criticalIndicatorWords : List String :=
  ["waive", "forfeit", "surrender", "binding", "mandatory", "required"]

/-- The literal alternatives of the high-indicator regex in
determineSeverity. -/
def highIndicatorWords : List String :=
  ["sell", "monetize", "indefinitely", "without notice", "any reason"]

/-- RegExp.prototype.test for an alternation of literals is substring
containment of one of them. -/
def containsAny (words : List String) (s : List Char) : Bool :=
  words.any (fun w => (strIndexOf s w.data).isSome)

/-- determineSeverity from LawyerModal.ts. -/
def determineSeverity (category : RiskCategory) (context : List Char) : RiskSeverity :=
  let contextLower := toLowerList context
  if containsAny criticalIndicatorWords contextLower ∧
      (category = RiskCategory.arbitration ∨ category = RiskCategory.liability_waiver) then
    RiskSeverity.critical
  else if containsAny highIndicatorWords contextLower then
    RiskSeverity.high
  else
    (RISK_CATEGORIES category).defaultSeverity

/-- generateSummary from LawyerModal.ts (the context argument is unused
in the source as well). -/
def generateSummary (category : RiskCategory) (_context : List Char) : String :=
  match category with
  | RiskCategory.data_sharing =>
    "This service may share your personal information with third parties, partners, or advertisers."
  | RiskCategory.auto_renewal =>
    "Your subscription will automatically renew and you will be charged unless you cancel before the renewal date."
  | RiskCategory.third_party_access =>
    "External companies and service providers may have access to your data and account information."
  | RiskCategory.liability_waiver =>
    "The company limits their responsibility if something goes wrong. You may have limited options for recourse."
  | RiskCategory.arbitration =>
    "You may be giving up your right to sue in court or join a class action lawsuit. Disputes would be handled through private arbitration."
  | RiskCategory.data_retention =>
    "Your data may be kept for an extended period, even after you close your account."
  | RiskCategory.account_termination =>
    "The company can suspend or terminate your account at their discretion, potentially without warning."
  | RiskCategory.jurisdiction =>
    "Legal matters will be handled according to specific laws and courts, which may not be in your location."

/-- The inner keyword loop of analyzeRisks: the first keyword (in table
order) whose lowercase form occurs in the lowercased text, with its
index. -/
def firstKeywordHit (tl : List Char) : List String → Option (String × Nat)
  | [] => none
  | k :: ks =>
    match strIndexOf tl (toLowerList k.data) with
    | some i => some (k, i)
    | none => firstKeywordHit tl ks

/-- One iteration of the category loop of analyzeRisks: the finding
pushed for a category, if any of its keywords occurs. -/
def findCategoryRisk (text : List Char) (now : Nat) (cat : RiskCategory) : Option RiskItem :=
  match firstKeywordHit (toLowerList text) (RISK_KEYWORDS cat) with
  | none => none
  | some (k, index) =>
    let start := index - 100
    let stop := min text.length (index + k.length + 100)
    let context := (text.drop start).take (stop - start)
    some
      { id := "risk-" ++ categoryKey cat ++ "-" ++ toString now
        category := cat
        severity := determineSeverity cat context
        title := (RISK_CATEGORIES cat).label
        summary := generateSummary cat context
        originalText := String.mk (trimChars context)
        locStart := index
        locEnd := index + k.length }

/-- The source comparator (a, b) => severityRank(b.severity) -
severityRank(a.severity) keeps a before b exactly when this relation
holds. -/
def sortLE (a b : RiskItem) : Prop :=
  severityRank b.severity ≤ severityRank a.severity

instance : DecidableRel sortLE := fun _ _ => Nat.decLe _ _

instance : IsTotal RiskItem sortLE :=
  ⟨fun a b => Nat.le_total (severityRank b.severity) (severityRank a.severity)⟩

instance : IsTrans RiskItem sortLE :=
  ⟨fun _ _ _ h1 h2 => Nat.le_trans h2 h1⟩

/-- The risks array of analyzeRisks before the final sort, in category
iteration order. -/
def analyzeRisksUnsorted (text : List Char) (now : Nat) : List RiskItem :=
  CATEGORY_ORDER.filterMap (findCategoryRisk text now)

/-- analyzeRisks from LawyerModal.ts: keyword findings, sorted stably by
severity rank descending. -/
def analyzeRisks (text : String) (now : Nat) : List RiskItem :=
  List.insertionSort sortLE (analyzeRisksUnsorted text.data now)

/-- calculateOverallSeverity from LawyerModal.ts. -/
def calculateOverallSeverity (risks : List RiskItem) : RiskSeverity :=
  match risks with
  | [] => RiskSeverity.low
  | _ =>
    let maxRank := (risks.map (fun r => severityRank r.severity)).foldl max 0
    if 4 ≤ maxRank then RiskSeverity.critical
    else if 3 ≤ maxRank then RiskSeverity.high
    else if 2 ≤ maxRank then RiskSeverity.medium
    else RiskSeverity.low

/-- generateOverallSummary from LawyerModal.ts. -/
def generateOverallSummary (risks : List RiskItem) : String :=
  match risks with
  | [] => "No significant risks detected in this agreement."
  | _ =>
    let criticalCount := (risks.filter (fun r => decide (r.severity = RiskSeverity.critical))).length
    let highCount := (risks.filter (fun r => decide (r.severity = RiskSeverity.high))).length
    let s1 := "Found " ++ toString risks.length ++ " potential risk" ++
      (if risks.length = 1 then "" else "s") ++ ". "
    let s2 :=
      if 0 < criticalCount then
        s1 ++ toString criticalCount ++ " critical issue" ++
          (if criticalCount = 1 then "" else "s") ++ " require" ++
          (if criticalCount = 1 then "s" else "") ++ " attention. "
      else s1
    let s3 :=
      if 0 < highCount then
        s2 ++ toString highCount ++ " high-priority concern" ++
          (if highCount = 1 then "" else "s") ++ ". "
      else s2
    String.mk (trimChars s3.data)

/-- One DANGEROUS_COMBINATIONS entry. -/
structure DangerCombo where
  categories : List RiskCategory
  severityBoost : Nat
  warning : String
deriving DecidableEq, Repr

/-- DANGEROUS_COMBINATIONS from LawyerModal.ts, in source order. -/
def DANGEROUS_COMBINATIONS : List DangerCombo :=
  [⟨[RiskCategory.arbitration, RiskCategory.liability_waiver], 1,
    "Combined arbitration and liability waiver severely limits your legal options"⟩,
   ⟨[RiskCategory.data_sharing, RiskCategory.third_party_access, RiskCategory.data_retention], 1,
    "Your data can be shared widely and kept indefinitely"⟩,
   ⟨[RiskCategory.auto_renewal, RiskCategory.account_termination], 1,
    "They can charge you automatically but terminate you at will"⟩]

/-- combo.categories.every(c => categories.includes(c)). -/
def comboTriggered (categories : List RiskCategory) (combo : DangerCombo) : Bool :=
  combo.categories.all (fun c => categories.any (fun x => decide (x = c)))

/-- calculateRiskScore from LawyerModal.ts. -/
def calculateRiskScore (risks : List RiskItem) : Nat :=
  match risks with
  | [] => 0
  | _ =>
    let base := risks.foldl (fun acc r => acc + severityRank r.severity * 8) 0
    let categories := risks.map (fun r => r.category)
    let total := DANGEROUS_COMBINATIONS.foldl
      (fun acc combo =>
        if comboTriggered categories combo then acc + combo.severityBoost * 15 else acc)
      base
    min 100 total

/-- INDUSTRY_AVERAGES from LawyerModal.ts as an association list in
declaration order. -/
def INDUSTRY_AVERAGES : List (String × Int) :=
  [("social_media", 72), ("ecommerce", 58), ("saas", 54),
   ("finance", 68), ("healthcare", 62), ("default", 55)]

/-- Keys a plain JavaScript object literal inherits from
Object.prototype: a property read on INDUSTRY_AVERAGES at one of these
keys returns a truthy non-numeric value (a function, or for __proto__
the prototype object itself) rather than undefined. -/
def OBJECT_PROTOTYPE_KEYS : List String :=
  ["constructor", "hasOwnProperty", "isPrototypeOf", "propertyIsEnumerable",
   "toLocaleString", "toString", "valueOf", "__proto__", "__defineGetter__",
   "__defineSetter__", "__lookupGetter__", "__lookupSetter__"]

/-- The value of INDUSTRY_AVERAGES[industry] || INDUSTRY_AVERAGES.default:
either one of the stored numeric averages (or the default 55), or a
truthy non-numeric value inherited from Object.prototype, which the ||
keeps and whose subtraction from a number is NaN. -/
inductive JsAverage where
  | num (n : Int)
  | nonNum
deriving DecidableEq, Repr

/-- INDUSTRY_AVERAGES[industry] || INDUSTRY_AVERAGES.default. Own keys
are checked first (every stored average is a nonzero number, hence
truthy); a key inherited from Object.prototype yields its truthy
non-numeric value; only an absent key gives undefined, which is falsy,
so || substitutes the default 55. -/
def lookupAverage (industry : String) : JsAverage :=
  match (INDUSTRY_AVERAGES.find? (fun p => p.1 == industry)).map Prod.snd with
  | some a => JsAverage.num a
  | none =>
    if OBJECT_PROTOTYPE_KEYS.contains industry then JsAverage.nonNum
    else JsAverage.num 55

/-- The record returned by compareToAverage. -/
structure ComparisonResult where
  comparison : String
  percentile : Int
  message : String
deriving DecidableEq, Repr

/-- compareToAverage from LawyerModal.ts. When the looked-up average is
the truthy non-numeric inherited value, score - average is NaN in the
source; both NaN < -15 and NaN > 15 are false, so control reaches the
final else branch and returns the average record. -/
def compareToAverage (score : Int) (industry : String) : ComparisonResult :=
  match lookupAverage industry with
  | JsAverage.num average =>
    let difference := score - average
    if difference < -15 then
      { comparison := "better"
        percentile := max 5 (50 - |difference|)
        message := "This agreement is better than " ++
          toString (100 - max 5 (50 - |difference|)) ++ "% of similar services" }
    else if 15 < difference then
      { comparison := "worse"
        percentile := min 95 (50 + difference)
        message := "This agreement is riskier than " ++
          toString (min 95 (50 + difference)) ++ "% of similar services" }
    else
      { comparison := "average"
        percentile := 50
        message := "This agreement has typical risk levels for this type of service" }
  | JsAverage.nonNum =>
    { comparison := "average"
      percentile := 50
      message := "This agreement has typical risk levels for this type of service" }

/-- detectDangerousCombinations from LawyerModal.ts. -/
def detectDangerousCombinations (risks : List RiskItem) : List String :=
  let categories := risks.map (fun r => r.category)
  DANGEROUS_COMBINATIONS.filterMap
    (fun combo => if comboTriggered categories combo then some combo.warning else none)

/-- The record returned by analyzeRisksEnhanced. -/
structure EnhancedResult where
  risks : List RiskItem
  score : Nat
  comparison : ComparisonResult
  redFlags : List String
  combinationWarnings : List String
  overallSeverity : RiskSeverity
  summary : String
deriving DecidableEq, Repr

/-- analyzeRisksEnhanced from LawyerModal.ts. -/
def analyzeRisksEnhanced (text : String) (now : Nat) : EnhancedResult :=
  let risks := analyzeRisks text now
  let score := calculateRiskScore risks
  let comparison := compareToAverage (score : Int) "default"
  let redFlags := detectRedFlags text
  let combinationWarnings := detectDangerousCombinations risks
  let overallSeverity := calculateOverallSeverity risks
  let summary := generateOverallSummary risks
  let finalSeverity :=
    if 3 ≤ redFlags.length ∧ overallSeverity ≠ RiskSeverity.critical then RiskSeverity.critical
    else if 2 ≤ redFlags.length ∧ severityRank overallSeverity < 3 then RiskSeverity.high
    else overallSeverity
  { risks := risks, score := score, comparison := comparison, redFlags := redFlags,
    combinationWarnings := combinationWarnings, overallSeverity := finalSeverity,
    summary := summary }

/-- The combination rules triggered by a findings list, in the spec's
subset wording. -/
def triggeredCombos (risks : List RiskItem) : List DangerCombo :=
  DANGEROUS_COMBINATIONS.filter
    (fun combo => decide (combo.categories ⊆ risks.map (fun r => r.category)))

/-- A bare finding used to instantiate universally quantified claims. -/
def sampleRisk (cat : RiskCategory) (sev : RiskSeverity) : RiskItem :=
  ⟨"", cat, sev, "", "", "", 0, 0⟩

/-- The spec's rank-to-enum ladder: rank at least 4 gives critical, at
least 3 high, at least 2 medium, else low. -/
def rankLadder (n : Nat) : RiskSeverity :=
  if 4 ≤ n then RiskSeverity.critical
  else if 3 ≤ n then RiskSeverity.high
  else if 2 ≤ n then RiskSeverity.medium
  else RiskSeverity.low

/-- The hypothesis of the end-to-end scenario: no keyword of any
category occurs case-insensitively in the text. -/
def noKeywordOccurs (text : String) : Bool :=
  CATEGORY_ORDER.all (fun cat =>
    (RISK_KEYWORDS cat).all (fun k =>
      (strIndexOf (toLowerList text.data) (toLowerList k.data)).isNone))

/-- Erase the clock-dependent id field of a finding. -/
def stripId (r : RiskItem) : RiskItem := { r with id := "" }

/-- The spec's wording of the industry-average table: a per-segment
lookup with the unknown segment falling back to the default 55. -/
def compareSpecAverage (industry : String) : Int :=
  if industry = "social_media" then 72
  else if industry = "ecommerce" then 58
  else if industry = "saas" then 54
  else if industry = "finance" then 68
  else if industry = "healthcare" then 62
  else 55

/-- The spec's wording of the comparator's observable fields: the
comparison label and the percentile, by the three difference bands. -/
def compareSpecFields (score : Int) (industry : String) : String × Int :=
  let average := compareSpecAverage industry
  let difference := score - average
  if difference < -15 then ("better", max 5 (50 - |difference|))
  else if 15 < difference then ("worse", min 95 (50 + difference))
  else ("average", 50)

/-! ### Baseline comparator: claims C5 and C10 -/

lemma compareToAverage_num (score a : Int) (industry : String)
    (hL : lookupAverage industry = JsAverage.num a) :
    compareToAverage score industry =
      (if score - a < -15 then
        { comparison := "better", percentile := max 5 (50 - |score - a|),
          message := "This agreement is better than " ++
            toString (100 - max 5 (50 - |score - a|)) ++ "% of similar services" }
      else if 15 < score - a then
        { comparison := "worse", percentile := min 95 (50 + (score - a)),
          message := "This agreement is riskier than " ++
            toString (min 95 (50 + (score - a))) ++ "% of similar services" }
      else
        ({ comparison := "average", percentile := 50,
           message := "This agreement has typical risk levels for this type of service" } :
          ComparisonResult)) := by
  unfold compareToAverage
  rw [hL]

lemma compareToAverage_nonNum (score : Int) (industry : String)
    (hL : lookupAverage industry = JsAverage.nonNum) :
    compareToAverage score industry =
      { comparison := "average", percentile := 50,
        message := "This agreement has typical risk levels for this type of service" } := by
  unfold compareToAverage
  rw [hL]

lemma lookupAverage_num_of_not_proto (industry : String)
    (h : OBJECT_PROTOTYPE_KEYS.contains industry = false) :
    lookupAverage industry = JsAverage.num (compareSpecAverage industry) := by
  by_cases h1 : industry = "social_media"
  · subst h1; rfl
  by_cases h2 : industry = "ecommerce"
  · subst h2; rfl
  by_cases h3 : industry = "saas"
  · subst h3; rfl
  by_cases h4 : industry = "finance"
  · subst h4; rfl
  by_cases h5 : industry = "healthcare"
  · subst h5; rfl
  by_cases h6 : industry = "default"
  · subst h6; rfl
  · have e1 : (("social_media" : String) == industry) = false :=
      beq_eq_false_iff_ne.mpr (fun e => h1 e.symm)
    have e2 : (("ecommerce" : String) == industry) = false :=
      beq_eq_false_iff_ne.mpr (fun e => h2 e.symm)
    have e3 : (("saas" : String) == industry) = false :=
      beq_eq_false_iff_ne.mpr (fun e => h3 e.symm)
    have e4 : (("finance" : String) == industry) = false :=
      beq_eq_false_iff_ne.mpr (fun e => h4 e.symm)
    have e5 : (("healthcare" : String) == industry) = false :=
      beq_eq_false_iff_ne.mpr (fun e => h5 e.symm)
    have e6 : (("default" : String) == industry) = false :=
      beq_eq_false_iff_ne.mpr (fun e => h6 e.symm)
    have h7 : industry ∉ OBJECT_PROTOTYPE_KEYS := by simpa using h
    simp [lookupAverage, INDUSTRY_AVERAGES, compareSpecAverage, List.find?,
      e1, e2, e3, e4, e5, e6, h1, h2, h3, h4, h5, h6, h7]

lemma lookupAverage_num_bounds (industry : String) (a : Int)
    (h : lookupAverage industry = JsAverage.num a) : 54 ≤ a ∧ a ≤ 72 := by
  unfold lookupAverage at h
  cases hf : INDUSTRY_AVERAGES.find? (fun p => p.1 == industry) with
  | some p =>
    rw [hf] at h
    have h2 : JsAverage.num p.2 = JsAverage.num a := h
    injection h2 with h3
    have hm := List.mem_of_find?_eq_some hf
    fin_cases hm <;> simp_all <;> omega
  | none =>
    rw [hf] at h
    have h2 : (if OBJECT_PROTOTYPE_KEYS.contains industry then JsAverage.nonNum
      else JsAverage.num 55) = JsAverage.num a := h
    by_cases hp : OBJECT_PROTOTYPE_KEYS.contains industry = true
    · rw [if_pos hp] at h2
      cases h2
    · rw [if_neg hp] at h2
      injection h2 with h3
      omega

lemma compareSpecAverage_bounds (industry : String) :
    54 ≤ compareSpecAverage industry ∧ compareSpecAverage industry ≤ 72 := by
  unfold compareSpecAverage
  split_ifs <;> norm_num

/-- C5 counterexample: at the industry string "constructor", a key
inherited from Object.prototype, the source's lookup is truthy and
non-numeric, the difference is NaN, and the result is the average
branch at percentile 50 - not the claimed fallback to the default
average 55, which for score 0 would give "better" at percentile 5. -/
theorem claim_C5_counterexample :
    (compareToAverage 0 "constructor").comparison = "average" ∧
    (compareToAverage 0 "constructor").percentile = 50 ∧
    ¬((compareToAverage 0 "constructor").comparison = "better" ∧
      (compareToAverage 0 "constructor").percentile = 5) := by
  refine ⟨rfl, rfl, ?_⟩
  intro hc
  exact absurd hc.1 (by decide)

/-- C5 as amended: for every integer score and every industry string
that is not a key inherited from Object.prototype, compareToAverage
looks up the fixed average (social_media 72, ecommerce 58, saas 54,
finance 68, healthcare 62, default 55, with unknown segments falling
back to 55), sets difference = score - average, and returns "better"
with percentile max(5, 50 - |difference|) when difference < -15,
"worse" with percentile min(95, 50 + difference) when difference > 15,
and "average" with percentile 50 otherwise; at a key inherited from
Object.prototype the lookup yields a truthy non-numeric value, the
difference is NaN, and the result is "average" with percentile 50
regardless of score. -/
theorem claim_C5_amended (score : Int) (industry : String) :
    (OBJECT_PROTOTYPE_KEYS.contains industry = false →
      ((compareToAverage score industry).comparison,
        (compareToAverage score industry).percentile) =
          compareSpecFields score industry) ∧
    (OBJECT_PROTOTYPE_KEYS.contains industry = true →
      (compareToAverage score industry).comparison = "average" ∧
        (compareToAverage score industry).percentile = 50) := by
  constructor
  · intro h
    rw [compareToAverage_num score (compareSpecAverage industry) industry
      (lookupAverage_num_of_not_proto industry h)]
    simp only [compareSpecFields]
    split_ifs <;> rfl
  · intro h
    have hmem : industry ∈ OBJECT_PROTOTYPE_KEYS := by simpa using h
    have hnp : lookupAverage industry = JsAverage.nonNum := by
      have hfind : INDUSTRY_AVERAGES.find? (fun p => p.1 == industry) = none := by
        fin_cases hmem <;> rfl
      show (match (INDUSTRY_AVERAGES.find? (fun p => p.1 == industry)).map Prod.snd with
        | some a => JsAverage.num a
        | none =>
          if OBJECT_PROTOTYPE_KEYS.contains industry then JsAverage.nonNum
          else JsAverage.num 55) = JsAverage.nonNum
      rw [hfind]
      show (if OBJECT_PROTOTYPE_KEYS.contains industry then JsAverage.nonNum
        else JsAverage.num 55) = JsAverage.nonNum
      exact if_pos h
    rw [compareToAverage_nonNum score industry hnp]
    exact ⟨rfl, rfl⟩

/-- Witness for C5 (amended): the saas segment at score 0 follows the
numeric table, and the inherited key "constructor" lands in the
average branch at percentile 50. -/
theorem claim_C5_witness :
    ((compareToAverage 0 "saas").comparison,
      (compareToAverage 0 "saas").percentile) = compareSpecFields 0 "saas" ∧
    ((compareToAverage 0 "constructor").comparison = "average" ∧
      (compareToAverage 0 "constructor").percentile = 50) :=
  ⟨(claim_C5_amended 0 "saas").1 (by decide),
   (claim_C5_amended 0 "constructor").2 (by decide)⟩

/-- C10: for every integer score in [0, 100] and every industry string,
the percentile returned by compareToAverage lies in [5, 95]: it is 50
in the average branch, in [5, 34] in the better branch and in [66, 95]
in the worse branch. -/
theorem claim_C10 (score : Int) (industry : String)
    (h0 : 0 ≤ score) (h100 : score ≤ 100) :
    (5 ≤ (compareToAverage score industry).percentile ∧
      (compareToAverage score industry).percentile ≤ 95) ∧
    ((compareToAverage score industry).comparison = "average" →
      (compareToAverage score industry).percentile = 50) ∧
    ((compareToAverage score industry).comparison = "better" →
      5 ≤ (compareToAverage score industry).percentile ∧
        (compareToAverage score industry).percentile ≤ 34) ∧
    ((compareToAverage score industry).comparison = "worse" →
      66 ≤ (compareToAverage score industry).percentile ∧
        (compareToAverage score industry).percentile ≤ 95) := by
  cases hL : lookupAverage industry with
  | nonNum =>
    rw [compareToAverage_nonNum score industry hL]
    exact ⟨⟨by norm_num, by norm_num⟩, fun _ => rfl,
      fun hx => absurd hx (by decide), fun hx => absurd hx (by decide)⟩
  | num a =>
    obtain ⟨hb1, hb2⟩ := lookupAverage_num_bounds industry a hL
    rw [compareToAverage_num score a industry hL]
    split_ifs with hlt hgt
    · have habs : |score - a| = -(score - a) := abs_of_neg (by omega)
      rw [habs]
      have hmax : max (5 : Int) (50 - -(score - a)) = 5 ∨
          max (5 : Int) (50 - -(score - a)) = 50 - -(score - a) := max_choice _ _
      constructor
      · rcases hmax with h | h <;> simp only [h] <;> omega
      refine ⟨fun h => by simp at h, fun _ => ?_, fun h => by simp at h⟩
      rcases hmax with h | h <;> simp only [h] <;> omega
    · have hmin : min (95 : Int) (50 + (score - a)) = 95 ∨
          min (95 : Int) (50 + (score - a)) = 50 + (score - a) := min_choice _ _
      constructor
      · rcases hmin with h | h <;> simp only [h] <;> omega
      refine ⟨fun h => by simp at h, fun h => by simp at h, fun _ => ?_⟩
      rcases hmin with h | h <;> simp only [h] <;> omega
    · exact ⟨⟨by norm_num, by norm_num⟩, fun _ => rfl,
        fun h => by simp at h, fun h => by simp at h⟩

/-- Witness for C10 at score 50 in the saas segment. -/
theorem claim_C10_witness :
    5 ≤ (compareToAverage 50 "saas").percentile ∧
      (compareToAverage 50 "saas").percentile ≤ 95 :=
  (claim_C10 50 "saas" (by norm_num) (by norm_num)).1

/-! ### Risk scorer: claim C3 -/

lemma comboTriggered_eq (cats : List RiskCategory) (combo : DangerCombo) :
    comboTriggered cats combo = decide (combo.categories ⊆ cats) := by
  by_cases h : combo.categories ⊆ cats
  · simp only [h, decide_eq_true_eq, decide_True]
    simp only [comboTriggered, List.all_eq_true, List.any_eq_true, decide_eq_true_eq]
    exact fun c hc => ⟨c, h hc, rfl⟩
  · simp only [h, decide_False]
    rw [Bool.eq_false_iff]
    intro hall
    apply h
    intro c hc
    simp only [comboTriggered, List.all_eq_true, List.any_eq_true, decide_eq_true_eq] at hall
    obtain ⟨x, hx, rfl⟩ := hall c hc
    exact hx

lemma foldl_add_rank (l : List RiskItem) (n : Nat) :
    l.foldl (fun acc r => acc + severityRank r.severity * 8) n =
      n + (l.map (fun r => severityRank r.severity * 8)).sum := by
  induction l generalizing n with
  | nil => simp
  | cons x t ih => simp [ih, Nat.add_assoc]

lemma triggeredCombos_eq (risks : List RiskItem) :
    triggeredCombos risks =
      DANGEROUS_COMBINATIONS.filter
        (comboTriggered (risks.map (fun r => r.category))) := by
  unfold triggeredCombos
  apply List.filter_congr
  intro c _
  exact (comboTriggered_eq _ c).symm

lemma foldl_combo_filter (p : DangerCombo → Bool) (combos : List DangerCombo)
    (hboost : ∀ c ∈ combos, c.severityBoost = 1) (n : Nat) :
    combos.foldl (fun acc c => if p c then acc + c.severityBoost * 15 else acc) n =
      n + 15 * (combos.filter p).length := by
  induction combos generalizing n with
  | nil => simp
  | cons c t ih =>
    have hc := hboost c (List.mem_cons_self c t)
    have iht := ih (fun x hx => hboost x (List.mem_cons_of_mem c hx))
    cases hp : p c <;>
      simp [List.foldl_cons, List.filter_cons, hp, iht, hc] <;> omega

/-- C3: calculateRiskScore returns 0 on the empty list, and otherwise
the sum over findings of rank(severity) * 8 plus 15 for each
dangerous-combination rule whose full category set is contained in the
findings' categories, saturating at 100; the result is always at most
100 (and at least 0, being a natural number). -/
theorem claim_C3 :
    calculateRiskScore [] = 0 ∧
    (∀ risks, risks ≠ [] →
      calculateRiskScore risks =
        min 100 ((risks.map (fun r => severityRank r.severity * 8)).sum +
          15 * (triggeredCombos risks).length)) ∧
    (∀ risks, calculateRiskScore risks ≤ 100) := by
  refine ⟨rfl, ?_, ?_⟩
  · intro risks hne
    obtain ⟨a, l, rfl⟩ : ∃ a l, risks = a :: l := by
      cases risks with
      | nil => exact absurd rfl hne
      | cons a l => exact ⟨a, l, rfl⟩
    show min 100 _ = min 100 _
    congr 1
    rw [triggeredCombos_eq,
      foldl_combo_filter (comboTriggered ((a :: l).map (fun r => r.category)))
        DANGEROUS_COMBINATIONS (by decide), foldl_add_rank]
    omega
  · intro risks
    cases risks with
    | nil => exact Nat.zero_le _
    | cons a l => exact Nat.min_le_left _ _

/-- Witness for C3 on a single critical arbitration finding. -/
theorem claim_C3_witness :
    calculateRiskScore [sampleRisk RiskCategory.arbitration RiskSeverity.critical] =
      min 100 ((([sampleRisk RiskCategory.arbitration RiskSeverity.critical]).map
        (fun r => severityRank r.severity * 8)).sum +
        15 * (triggeredCombos
          [sampleRisk RiskCategory.arbitration RiskSeverity.critical]).length) :=
  claim_C3.2.1 [sampleRisk RiskCategory.arbitration RiskSeverity.critical] (by decide)

/-! ### Severity aggregation: claim C7 -/

lemma le_foldl_max (l : List Nat) (a : Nat) : a ≤ l.foldl max a := by
  induction l generalizing a with
  | nil => exact Nat.le_refl a
  | cons x t ih => exact Nat.le_trans (Nat.le_max_left a x) (ih (max a x))

lemma mem_le_foldl_max (l : List Nat) (a : Nat) : ∀ x ∈ l, x ≤ l.foldl max a := by
  induction l generalizing a with
  | nil => intro x hx; cases hx
  | cons y t ih =>
    intro x hx
    cases hx with
    | head => exact Nat.le_trans (Nat.le_max_right a y) (le_foldl_max t (max a y))
    | tail _ h => exact ih (max a y) x h

lemma foldl_max_mem (l : List Nat) (a : Nat) :
    l.foldl max a = a ∨ l.foldl max a ∈ l := by
  induction l generalizing a with
  | nil => exact Or.inl rfl
  | cons x t ih =>
    rcases ih (max a x) with h | h
    · rcases max_choice a x with hm | hm
      · exact Or.inl (by rw [List.foldl_cons, h, hm])
      · exact Or.inr (by rw [List.foldl_cons, h, hm]; exact List.mem_cons_self x t)
    · exact Or.inr (List.mem_cons_of_mem x h)

lemma severityRank_pos (s : RiskSeverity) : 1 ≤ severityRank s := by
  cases s <;> simp [severityRank]

lemma severityRank_le_four (s : RiskSeverity) : severityRank s ≤ 4 := by
  cases s <;> simp [severityRank]

lemma severityRank_injective {a b : RiskSeverity}
    (h : severityRank a = severityRank b) : a = b := by
  cases a <;> cases b <;> first | rfl | (exfalso; simp [severityRank] at h)

lemma rankLadder_rank {n : Nat} (h1 : 1 ≤ n) (h4 : n ≤ 4) :
    severityRank (rankLadder n) = n := by
  interval_cases n <;> rfl

lemma calculateOverallSeverity_cons (a : RiskItem) (l : List RiskItem) :
    calculateOverallSeverity (a :: l) =
      rankLadder (((a :: l).map (fun r => severityRank r.severity)).foldl max 0) := rfl

/-- C7: calculateOverallSeverity returns low on the empty list, and on
a non-empty list maps the maximum severity rank through the ladder
(4 critical, 3 high, 2 medium, else low); the result bounds every
finding's rank from above and is itself the severity of some finding,
i.e. it equals the maximum severity present. -/
theorem claim_C7 :
    calculateOverallSeverity [] = RiskSeverity.low ∧
    (∀ risks, risks ≠ [] →
      calculateOverallSeverity risks =
        rankLadder ((risks.map (fun r => severityRank r.severity)).foldl max 0)) ∧
    (∀ risks, ∀ r ∈ risks,
      severityRank r.severity ≤ severityRank (calculateOverallSeverity risks)) ∧
    (∀ risks, risks ≠ [] → ∃ r ∈ risks, r.severity = calculateOverallSeverity risks) := by
  have hM : ∀ (a : RiskItem) (l : List RiskItem),
      1 ≤ ((a :: l).map (fun r => severityRank r.severity)).foldl max 0 ∧
      ((a :: l).map (fun r => severityRank r.severity)).foldl max 0 ≤ 4 := by
    intro a l
    constructor
    · exact Nat.le_trans (severityRank_pos a.severity)
        (mem_le_foldl_max _ 0 _ (List.mem_map_of_mem _ (List.mem_cons_self a l)))
    · rcases foldl_max_mem ((a :: l).map (fun r => severityRank r.severity)) 0 with h | h
      · omega
      · obtain ⟨r, _, heq⟩ := List.mem_map.mp h
        rw [← heq]
        exact severityRank_le_four r.severity
  refine ⟨rfl, ?_, ?_, ?_⟩
  · intro risks hne
    cases risks with
    | nil => exact absurd rfl hne
    | cons a l => exact calculateOverallSeverity_cons a l
  · intro risks r hr
    cases risks with
    | nil => cases hr
    | cons a l =>
      rw [calculateOverallSeverity_cons, rankLadder_rank (hM a l).1 (hM a l).2]
      exact mem_le_foldl_max _ 0 _ (List.mem_map_of_mem _ hr)
  · intro risks hne
    cases risks with
    | nil => exact absurd rfl hne
    | cons a l =>
      rcases foldl_max_mem ((a :: l).map (fun r => severityRank r.severity)) 0 with h | h
      · exfalso
        have := (hM a l).1
        omega
      · obtain ⟨r, hr, hrank⟩ := List.mem_map.mp h
        refine ⟨r, hr, ?_⟩
        apply severityRank_injective
        rw [calculateOverallSeverity_cons, rankLadder_rank (hM a l).1 (hM a l).2, hrank]

/-- Witness for C7 on a two-finding list whose maximum severity is high. -/
theorem claim_C7_witness :
    calculateOverallSeverity
        [sampleRisk RiskCategory.jurisdiction RiskSeverity.low,
         sampleRisk RiskCategory.arbitration RiskSeverity.high] =
      rankLadder ((([sampleRisk RiskCategory.jurisdiction RiskSeverity.low,
        sampleRisk RiskCategory.arbitration RiskSeverity.high]).map
          (fun r => severityRank r.severity)).foldl max 0) ∧
    ∃ r ∈ [sampleRisk RiskCategory.jurisdiction RiskSeverity.low,
        sampleRisk RiskCategory.arbitration RiskSeverity.high],
      r.severity = calculateOverallSeverity
        [sampleRisk RiskCategory.jurisdiction RiskSeverity.low,
         sampleRisk RiskCategory.arbitration RiskSeverity.high] :=
  ⟨claim_C7.2.1 _ (by decide), claim_C7.2.2.2 _ (by decide)⟩

/-! ### Enhanced facade escalation: claim C4 -/

/-- C4: the facade's returned overallSeverity is critical when 3 or more
red flags are found and the base severity is not already critical, high
when 2 or more red flags are found and the base rank is below 3, and
the base severity otherwise; in particular exactly 2 red flags with
base medium escalate to high, and 3 or more red flags always yield
critical. -/
theorem claim_C4 (text : String) (now : Nat) :
    ((analyzeRisksEnhanced text now).overallSeverity =
      (if 3 ≤ (detectRedFlags text).length ∧
          calculateOverallSeverity (analyzeRisks text now) ≠ RiskSeverity.critical then
        RiskSeverity.critical
      else if 2 ≤ (detectRedFlags text).length ∧
          severityRank (calculateOverallSeverity (analyzeRisks text now)) < 3 then
        RiskSeverity.high
      else calculateOverallSeverity (analyzeRisks text now))) ∧
    ((detectRedFlags text).length = 2 →
      calculateOverallSeverity (analyzeRisks text now) = RiskSeverity.medium →
      (analyzeRisksEnhanced text now).overallSeverity = RiskSeverity.high) ∧
    (3 ≤ (detectRedFlags text).length →
      (analyzeRisksEnhanced text now).overallSeverity = RiskSeverity.critical) := by
  have heq : (analyzeRisksEnhanced text now).overallSeverity =
      (if 3 ≤ (detectRedFlags text).length ∧
          calculateOverallSeverity (analyzeRisks text now) ≠ RiskSeverity.critical then
        RiskSeverity.critical
      else if 2 ≤ (detectRedFlags text).length ∧
          severityRank (calculateOverallSeverity (analyzeRisks text now)) < 3 then
        RiskSeverity.high
      else calculateOverallSeverity (analyzeRisks text now)) := rfl
  refine ⟨heq, ?_, ?_⟩
  · intro h2 hmed
    rw [heq, hmed, h2]
    norm_num [severityRank]
  · intro h3
    rw [heq]
    by_cases hc : calculateOverallSeverity (analyzeRisks text now) = RiskSeverity.critical
    · rw [hc]
      simp [severityRank]
    · simp [h3, hc]

/-- Witness for C4: a text with exactly two red flags ("sole discretion"
and "no refunds ") whose single keyword finding has severity medium,
escalated to high by the facade. -/
theorem claim_C4_witness :
    (analyzeRisksEnhanced "sole discretion. no refunds " 0).overallSeverity =
      RiskSeverity.high :=
  (claim_C4 "sole discretion. no refunds " 0).2.1 (by decide) (by decide)

/-! ### Enhanced facade on keyword-free text: claim C1 -/

lemma firstKeywordHit_none (tl : List Char) (ks : List String)
    (h : ∀ k ∈ ks, (strIndexOf tl (toLowerList k.data)).isNone = true) :
    firstKeywordHit tl ks = none := by
  induction ks with
  | nil => rfl
  | cons k t ih =>
    have hk := h k (List.mem_cons_self k t)
    unfold firstKeywordHit
    cases hs : strIndexOf tl (toLowerList k.data) with
    | none => exact ih (fun x hx => h x (List.mem_cons_of_mem k hx))
    | some i => rw [hs] at hk; cases hk

lemma analyzeRisks_nil_of_noKeyword (text : String) (now : Nat)
    (h : noKeywordOccurs text = true) : analyzeRisks text now = [] := by
  have hcat : ∀ cat ∈ CATEGORY_ORDER, findCategoryRisk text.data now cat = none := by
    intro cat hcatmem
    have hks := (List.all_eq_true.mp h) cat hcatmem
    have hk : ∀ k ∈ RISK_KEYWORDS cat,
        (strIndexOf (toLowerList text.data) (toLowerList k.data)).isNone = true :=
      List.all_eq_true.mp hks
    unfold findCategoryRisk
    rw [firstKeywordHit_none _ _ hk]
  unfold analyzeRisks analyzeRisksUnsorted
  rw [List.filterMap_eq_nil_iff.mpr hcat]
  rfl

/-- C1 counterexample: the empty text contains no keyword, yet the
facade's baseline comparison is "better" at percentile 5, not the
claimed "average" at percentile 50. -/
theorem claim_C1_counterexample :
    noKeywordOccurs "" = true ∧
    (analyzeRisksEnhanced "" 0).comparison.comparison = "better" ∧
    (analyzeRisksEnhanced "" 0).comparison.comparison ≠ "average" ∧
    (analyzeRisksEnhanced "" 0).comparison.percentile = 5 := by
  refine ⟨by decide, ?_, ?_, ?_⟩ <;> decide

/-- C1 as amended: on keyword-free text the facade returns no risks,
score 0 and the fixed summary, but its baseline comparison (score 0
against the default average 55, difference -55 < -15) is "better" with
percentile 5, not "average" with percentile 50. -/
theorem claim_C1_amended (text : String) (now : Nat)
    (h : noKeywordOccurs text = true) :
    (analyzeRisksEnhanced text now).risks = [] ∧
    (analyzeRisksEnhanced text now).score = 0 ∧
    (analyzeRisksEnhanced text now).summary =
      "No significant risks detected in this agreement." ∧
    (analyzeRisksEnhanced text now).comparison.comparison = "better" ∧
    (analyzeRisksEnhanced text now).comparison.percentile = 5 := by
  have hrisks := analyzeRisks_nil_of_noKeyword text now h
  have hscore : (analyzeRisksEnhanced text now).score = 0 := by
    show calculateRiskScore (analyzeRisks text now) = 0
    rw [hrisks]
    rfl
  have hcmp : (analyzeRisksEnhanced text now).comparison =
      compareToAverage 0 "default" := by
    show compareToAverage ((calculateRiskScore (analyzeRisks text now) : Nat) : Int)
      "default" = compareToAverage 0 "default"
    rw [hrisks]
    rfl
  refine ⟨hrisks, hscore, ?_, ?_, ?_⟩
  · show generateOverallSummary (analyzeRisks text now) = _
    rw [hrisks]
    rfl
  · rw [hcmp]; rfl
  · rw [hcmp]; rfl

/-- Witness for C1 (amended) at the empty text. -/
theorem claim_C1_witness :
    (analyzeRisksEnhanced "" 0).risks = [] ∧
    (analyzeRisksEnhanced "" 0).score = 0 ∧
    (analyzeRisksEnhanced "" 0).summary =
      "No significant risks detected in this agreement." ∧
    (analyzeRisksEnhanced "" 0).comparison.comparison = "better" ∧
    (analyzeRisksEnhanced "" 0).comparison.percentile = 5 :=
  claim_C1_amended "" 0 (by decide)

/-! ### Determinism of the keyword analysis: claim C2 -/

lemma sortLE_stripId (a b : RiskItem) : sortLE (stripId a) (stripId b) ↔ sortLE a b :=
  Iff.rfl

lemma orderedInsert_map_stripId (x : RiskItem) (l : List RiskItem) :
    (List.orderedInsert sortLE x l).map stripId =
      List.orderedInsert sortLE (stripId x) (l.map stripId) := by
  induction l with
  | nil => rfl
  | cons y t ih =>
    by_cases h : sortLE x y
    · rw [List.orderedInsert_of_le _ _ h]
      simp only [List.map_cons]
      rw [List.orderedInsert_of_le _ _ ((sortLE_stripId x y).mpr h)]
    · have hs : ¬ sortLE (stripId x) (stripId y) := fun hc => h ((sortLE_stripId x y).mp hc)
      simp only [List.orderedInsert, if_neg h, if_neg hs, List.map_cons, ih]

lemma insertionSort_map_stripId (l : List RiskItem) :
    (List.insertionSort sortLE l).map stripId =
      List.insertionSort sortLE (l.map stripId) := by
  induction l with
  | nil => rfl
  | cons x t ih =>
    simp only [List.insertionSort, List.map_cons]
    rw [orderedInsert_map_stripId, ih]

lemma findCategoryRisk_stripId (text : List Char) (n1 n2 : Nat) (cat : RiskCategory) :
    (findCategoryRisk text n1 cat).map stripId =
      (findCategoryRisk text n2 cat).map stripId := by
  unfold findCategoryRisk
  cases firstKeywordHit (toLowerList text) (RISK_KEYWORDS cat) with
  | none => rfl
  | some p => rfl

/-- C2 counterexample: two invocations of analyzeRisks on the same text
at different clock values differ (in the id field, which embeds
Date.now()). -/
theorem claim_C2_counterexample :
    analyzeRisks "binding arbitration" 0 ≠ analyzeRisks "binding arbitration" 1 := by
  decide

/-- C2 as amended: the keyword analysis is deterministic in every field
except the finding id, which embeds the clock value; two invocations at
any clock values agree after erasing ids. -/
theorem claim_C2_amended (text : String) (n1 n2 : Nat) :
    (analyzeRisks text n1).map stripId = (analyzeRisks text n2).map stripId := by
  unfold analyzeRisks analyzeRisksUnsorted
  rw [insertionSort_map_stripId, insertionSort_map_stripId,
    List.map_filterMap, List.map_filterMap]
  exact congrArg (List.insertionSort sortLE)
    (List.filterMap_congr (fun cat _ => findCategoryRisk_stripId text.data n1 n2 cat))

/-! ### Ordering of findings: claim C9 -/

lemma sortLE_of_eq_sev {x y : RiskItem} (h : x.severity = y.severity) : sortLE x y := by
  unfold sortLE
  rw [h]

lemma filter_orderedInsert_sev (s : RiskSeverity) (x : RiskItem) (l : List RiskItem) :
    (List.orderedInsert sortLE x l).filter (fun r => decide (r.severity = s)) =
      (x :: l).filter (fun r => decide (r.severity = s)) := by
  induction l with
  | nil => rfl
  | cons y t ih =>
    by_cases h : sortLE x y
    · rw [List.orderedInsert_of_le _ _ h]
    · simp only [List.orderedInsert, if_neg h]
      by_cases hy : y.severity = s
      · have hx : ¬ x.severity = s := fun hx => h (sortLE_of_eq_sev (hx.trans hy.symm))
        simp [List.filter_cons, hy, hx, ih]
      · simp [List.filter_cons, hy, ih]

lemma filter_insertionSort_sev (s : RiskSeverity) (l : List RiskItem) :
    (List.insertionSort sortLE l).filter (fun r => decide (r.severity = s)) =
      l.filter (fun r => decide (r.severity = s)) := by
  induction l with
  | nil => rfl
  | cons x t ih =>
    simp only [List.insertionSort]
    rw [filter_orderedInsert_sev]
    simp only [List.filter_cons, ih]

/-- C9: the findings returned by analyzeRisks are sorted by severity
rank descending, and for each severity the findings of that severity
appear in the same order as in the pre-sort, category-iteration-order
list (the source sort is stable). -/
theorem claim_C9 (text : String) (now : Nat) :
    List.Sorted sortLE (analyzeRisks text now) ∧
    ∀ s : RiskSeverity,
      (analyzeRisks text now).filter (fun r => decide (r.severity = s)) =
        (analyzeRisksUnsorted text.data now).filter (fun r => decide (r.severity = s)) := by
  constructor
  · show List.Sorted sortLE
      (List.insertionSort sortLE (analyzeRisksUnsorted text.data now))
    exact List.sorted_insertionSort sortLE _
  · intro s
    exact filter_insertionSort_sev s _

/-! ### Keyword matcher guarantees: claim C6 -/

lemma findCategoryRisk_category {t : List Char} {n : Nat} {cat : RiskCategory}
    {r : RiskItem} (h : findCategoryRisk t n cat = some r) : r.category = cat := by
  unfold findCategoryRisk at h
  cases hk : firstKeywordHit (toLowerList t) (RISK_KEYWORDS cat) with
  | none => rw [hk] at h; cases h
  | some p =>
    rw [hk] at h
    obtain ⟨k, i⟩ := p
    injection h with h'
    rw [← h']

lemma firstKeywordHit_spec {tl : List Char} {ks : List String} {k : String} {i : Nat}
    (h : firstKeywordHit tl ks = some (k, i)) :
    k ∈ ks ∧ strIndexOf tl (toLowerList k.data) = some i := by
  induction ks with
  | nil => cases h
  | cons a t ih =>
    unfold firstKeywordHit at h
    cases hs : strIndexOf tl (toLowerList a.data) with
    | some j =>
      rw [hs] at h
      injection h with h'
      cases h'
      exact ⟨List.mem_cons_self _ _, hs⟩
    | none =>
      rw [hs] at h
      obtain ⟨hm, hidx⟩ := ih h
      exact ⟨List.mem_cons_of_mem a hm, hidx⟩

lemma strIndexOf_isPrefix {hay needle : List Char} {i : Nat}
    (h : strIndexOf hay needle = some i) : needle.isPrefixOf (hay.drop i) = true := by
  induction hay generalizing i with
  | nil =>
    unfold strIndexOf at h
    by_cases hp : needle.isPrefixOf ([] : List Char)
    · rw [if_pos hp] at h
      injection h with h'
      rw [← h']
      exact hp
    · rw [if_neg hp] at h
      cases h
  | cons c t ih =>
    unfold strIndexOf at h
    by_cases hp : needle.isPrefixOf (c :: t)
    · rw [if_pos hp] at h
      injection h with h'
      rw [← h']
      exact hp
    · rw [if_neg hp] at h
      have h2 : Option.map (fun n => n + 1) (strIndexOf t needle) = some i := h
      cases hs : strIndexOf t needle with
      | none => rw [hs] at h2; cases h2
      | some j =>
        rw [hs, Option.map_some'] at h2
        injection h2 with h'
        rw [← h']
        exact ih hs

lemma mem_filterMap_category {t : List Char} {n : Nat} {cats : List RiskCategory}
    {r : RiskItem} (h : r ∈ cats.filterMap (findCategoryRisk t n)) :
    r.category ∈ cats := by
  obtain ⟨c, hc, hfc⟩ := List.mem_filterMap.mp h
  rw [findCategoryRisk_category hfc]
  exact hc

lemma filterMap_count_le_one (t : List Char) (n : Nat) (c : RiskCategory)
    (cats : List RiskCategory) (hnd : cats.Nodup) :
    ((cats.filterMap (findCategoryRisk t n)).filter
      (fun r => decide (r.category = c))).length ≤ 1 := by
  induction cats with
  | nil => simp
  | cons a rest ih =>
    have hnd' := List.nodup_cons.mp hnd
    rw [List.filterMap_cons]
    cases hf : findCategoryRisk t n a with
    | none => exact ih hnd'.2
    | some r =>
      have hca : r.category = a := findCategoryRisk_category hf
      rw [List.filter_cons]
      by_cases hrc : r.category = c
      · have hnone : (rest.filterMap (findCategoryRisk t n)).filter
            (fun x => decide (x.category = c)) = [] := by
          rw [List.filter_eq_nil]
          intro x hx hdec
          have hxmem : x.category ∈ rest := mem_filterMap_category hx
          rw [decide_eq_true_eq] at hdec
          rw [hdec, ← hrc, hca] at hxmem
          exact hnd'.1 hxmem
        simp [hrc, hnone]
      · simp only [hrc, decide_False, cond_false]
        exact ih hnd'.2

/-- C6: analyzeRisks returns at most one finding per category, and every
finding's category has at least one keyword occurring case-insensitively
as a literal substring of the input text. -/
theorem claim_C6 (text : String) (now : Nat) (cat : RiskCategory) :
    ((analyzeRisks text now).filter (fun r => decide (r.category = cat))).length ≤ 1 ∧
    ∀ r ∈ analyzeRisks text now, ∃ k, k ∈ RISK_KEYWORDS r.category ∧
      ∃ i, (toLowerList k.data).isPrefixOf ((toLowerList text.data).drop i) = true := by
  have hperm : List.Perm (List.insertionSort sortLE (analyzeRisksUnsorted text.data now))
      (analyzeRisksUnsorted text.data now) := List.perm_insertionSort sortLE _
  constructor
  · show ((List.insertionSort sortLE (analyzeRisksUnsorted text.data now)).filter
      (fun r => decide (r.category = cat))).length ≤ 1
    rw [(hperm.filter _).length_eq]
    exact filterMap_count_le_one text.data now cat CATEGORY_ORDER (by decide)
  · intro r hr
    have hr' : r ∈ analyzeRisksUnsorted text.data now := hperm.mem_iff.mp hr
    obtain ⟨c, _, hfc⟩ := List.mem_filterMap.mp hr'
    have hcat : r.category = c := findCategoryRisk_category hfc
    cases hk : firstKeywordHit (toLowerList text.data) (RISK_KEYWORDS c) with
    | none =>
      unfold findCategoryRisk at hfc
      rw [hk] at hfc
      cases hfc
    | some p =>
      obtain ⟨k, i⟩ := p
      obtain ⟨hkmem, hkidx⟩ := firstKeywordHit_spec hk
      exact ⟨k, by rw [hcat]; exact hkmem, i, strIndexOf_isPrefix hkidx⟩

/-- Witness for C6 at a text containing the arbitration keyword
"binding arbitration". -/
theorem claim_C6_witness :
    ((analyzeRisks "binding arbitration" 0).filter
      (fun r => decide (r.category = RiskCategory.arbitration))).length ≤ 1 ∧
    ∃ k, k ∈ RISK_KEYWORDS RiskCategory.arbitration ∧
      ∃ i, (toLowerList k.data).isPrefixOf
        ((toLowerList "binding arbitration".data).drop i) = true := by
  constructor
  · exact (claim_C6 "binding arbitration" 0 RiskCategory.arbitration).1
  · exact (claim_C6 "binding arbitration" 0 RiskCategory.arbitration).2
      ⟨"risk-arbitration-0", RiskCategory.arbitration, RiskSeverity.critical,
        "Arbitration Clause",
        "You may be giving up your right to sue in court or join a class action lawsuit. Disputes would be handled through private arbitration.",
        "binding arbitration", 0, 19⟩ (by decide)

/-! ### Red-flag scanner: claim C8 -/

lemma rxMatch_litL (w r : List Char) : rxMatch (litL w) (w ++ r) = [r] := by
  induction w with
  | nil => rfl
  | cons c t ih =>
    show rxMatch (Rx.seq (Rx.ch c) (litL t)) (c :: (t ++ r)) = [r]
    simp [rxMatch, ih]

lemma flatMap_singleton (f : List Char → List (List Char)) (x : List Char) :
    ([x] : List (List Char)).flatMap f = f x := by
  simp

lemma rxMatch_phrase (B A' rest : List Char) (c : Char) (hc : jsWhitespace c = false) :
    rxMatch (Rx.seq (litL B) (Rx.seq Rx.ws (Rx.seq (litL (c :: A')) Rx.eps)))
      (B ++ (' ' :: (c :: (A' ++ rest)))) = [rest] := by
  have h1 : rxMatch (Rx.seq (litL B) (Rx.seq Rx.ws (Rx.seq (litL (c :: A')) Rx.eps)))
      (B ++ (' ' :: (c :: (A' ++ rest)))) =
      (rxMatch (litL B) (B ++ (' ' :: (c :: (A' ++ rest))))).flatMap
        (rxMatch (Rx.seq Rx.ws (Rx.seq (litL (c :: A')) Rx.eps))) := rfl
  rw [h1, rxMatch_litL, flatMap_singleton]
  have h2 : rxMatch (Rx.seq Rx.ws (Rx.seq (litL (c :: A')) Rx.eps))
      (' ' :: (c :: (A' ++ rest))) =
      (wsMatch (' ' :: (c :: (A' ++ rest)))).flatMap
        (rxMatch (Rx.seq (litL (c :: A')) Rx.eps)) := rfl
  rw [h2]
  have h3a : wsMatch (c :: (A' ++ rest)) = [] := by
    show (if jsWhitespace c then wsMatch (A' ++ rest) ++ [A' ++ rest] else []) = []
    rw [if_neg (by simp [hc])]
  have h3 : wsMatch (' ' :: (c :: (A' ++ rest))) = [c :: (A' ++ rest)] := by
    show (if jsWhitespace ' ' then wsMatch (c :: (A' ++ rest)) ++ [c :: (A' ++ rest)]
      else []) = _
    rw [if_pos (show jsWhitespace ' ' = true by decide), h3a]
    rfl
  rw [h3, flatMap_singleton]
  have h4 : rxMatch (Rx.seq (litL (c :: A')) Rx.eps) (c :: (A' ++ rest)) =
      (rxMatch (litL (c :: A')) ((c :: A') ++ rest)).flatMap (rxMatch Rx.eps) := rfl
  rw [h4, rxMatch_litL, flatMap_singleton]
  rfl

lemma rxMatch_rfBinding (rest : List Char) :
    rxMatch rfBinding ("binding arbitration".data ++ rest) = [rest] :=
  rxMatch_phrase "binding".data "rbitration".data rest 'a' (by decide)

lemma rxFirstMatch_isSome {r : Rx} {s : List Char} (i : Nat)
    (h : rxMatch r (s.drop i) ≠ []) : ∃ m, rxFirstMatch r s = some m := by
  induction s generalizing i with
  | nil =>
    rw [List.drop_nil] at h
    cases hm : (rxMatch r ([] : List Char)).head? with
    | none => exact absurd (List.head?_eq_none_iff.mp hm) h
    | some rem => exact ⟨[], by unfold rxFirstMatch; rw [hm]⟩
  | cons c t ih =>
    cases hm : (rxMatch r (c :: t)).head? with
    | some rem =>
      exact ⟨(c :: t).take ((c :: t).length - rem.length),
        by unfold rxFirstMatch; rw [hm]⟩
    | none =>
      have hnil : rxMatch r (c :: t) = [] := List.head?_eq_none_iff.mp hm
      cases i with
      | zero => rw [List.drop_zero] at h; exact absurd hnil h
      | succ j =>
        rw [List.drop_succ_cons] at h
        obtain ⟨m, hm2⟩ := ih j h
        refine ⟨m, ?_⟩
        show (match (rxMatch r (c :: t)).head? with
          | some rem => some ((c :: t).take ((c :: t).length - rem.length))
          | none => rxFirstMatch r t) = some m
        rw [hm]
        exact hm2

/-- C8: detectRedFlags contributes, for each of the ten fixed patterns in
order, exactly the pattern's first match text: nothing when no pattern
matches, only first-match texts of listed patterns, and on any text
containing the literal phrase "binding arbitration" the first match of
that pattern is in the output. -/
theorem claim_C8 :
    (∀ text : String, (∀ rx ∈ RED_FLAGS, rxFirstMatch rx text.data = none) →
      detectRedFlags text = []) ∧
    (∀ text : String, ∀ m ∈ detectRedFlags text,
      ∃ rx ∈ RED_FLAGS, rxFirstMatch rx text.data = some m.data) ∧
    (∀ text : String, ∀ i : Nat,
      ("binding arbitration".data.isPrefixOf (text.data.drop i)) = true →
      ∃ m, rxFirstMatch rfBinding text.data = some m ∧
        String.mk m ∈ detectRedFlags text) := by
  refine ⟨?_, ?_, ?_⟩
  · intro text h
    apply List.filterMap_eq_nil_iff.mpr
    intro rx hrx
    rw [h rx hrx]
    rfl
  · intro text m hm
    obtain ⟨rx, hrx, hmap⟩ := List.mem_filterMap.mp hm
    cases hf : rxFirstMatch rx text.data with
    | none => rw [hf] at hmap; cases hmap
    | some cs =>
      rw [hf, Option.map_some'] at hmap
      injection hmap with h'
      refine ⟨rx, hrx, ?_⟩
      rw [hf, ← h']
  · intro text i hpre
    obtain ⟨rest, hrest⟩ := List.isPrefixOf_iff_prefix.mp hpre
    have hmatch : rxMatch rfBinding (text.data.drop i) = [rest] := by
      rw [← hrest]
      exact rxMatch_rfBinding rest
    have hne : rxMatch rfBinding (text.data.drop i) ≠ [] := by
      rw [hmatch]
      exact List.cons_ne_nil _ _
    obtain ⟨m, hm⟩ := rxFirstMatch_isSome i hne
    refine ⟨m, hm, ?_⟩
    apply List.mem_filterMap.mpr
    refine ⟨rfBinding, by decide, ?_⟩
    rw [hm]
    rfl

/-- Witness for C8: the phrase text itself contains the pattern at
index 0, and a keyword-free text has no red flags. -/
theorem claim_C8_witness :
    (∃ m, rxFirstMatch rfBinding "binding arbitration".data = some m ∧
      String.mk m ∈ detectRedFlags "binding arbitration") ∧
    detectRedFlags "hello" = [] :=
  ⟨claim_C8.2.2 "binding arbitration" 0 (by decide),
   claim_C8.1 "hello" (by decide)⟩
